import Mathlib

/-!
Shallow embedding of the payment-intent core of `mini-stripe-rs`
(`src/api/src/payment_intents.rs`, `src/api/src/events_outbox.rs`,
`src/api/src/main.rs`) and proofs about it.

Modelling conventions:
* `Uuid::new_v4()` is modelled by a fresh-identifier supply `nextUuid`
  threaded through the database state; each draw increments it.
* The three Postgres tables are lists of rows; `INSERT` appends,
  a `WHERE`-guarded `UPDATE` maps over the list, `SELECT ... WHERE`
  is `List.find?`.
* The `jsonb` column `response_body` is `Option PaymentIntentResponse`:
  `none` is the `'{}'::jsonb` placeholder written at reservation time and
  `some r` is the serialized complete response (whose `"id"` field is a
  string, so the handler's `looks_complete` probe
  `response_body.get("id").and_then(as_str).is_some()` is exactly
  `isSome` here).  `serde_json` round-trips the struct unchanged.
* A request handler takes the database state and returns the HTTP-level
  result together with the state after the request: the state component
  is the committed state on `commit`, and the unchanged input state on
  `rollback` or on an error before any write.  sqlx-level I/O failures
  are not modelled (the storage layer is assumed available), which is the
  happy-path semantics every claim quantifies over.
* The i64 `Display` formatting used by `format!` in `request_fingerprint`
  is embedded as `intRepr` (decimal digits, minus sign for negatives).
-/

namespace MiniStripe

/-- The ASCII digit character for `d < 10`. -/
def digitChar (d : Nat) : Char := Char.ofNat (48 + d)

/-- Fuel-driven decimal digit run (most significant first); structural
recursion on the fuel so the kernel can evaluate it.  Any `fuel > n`
yields the digits of `n` (see `natDigitsF_fuel_irrel`). -/
def natDigitsF : Nat → Nat → List Char
  | 0, _ => []
  | f + 1, n =>
    if n < 10 then [digitChar n]
    else natDigitsF f (n / 10) ++ [digitChar (n % 10)]

/-- Decimal digit run of a natural number, most significant first;
mirrors Rust's `u64` `Display`. -/
def natDigits (n : Nat) : List Char := natDigitsF (n + 1) n

/-- Reads a digit run back; inverse of `natDigits`. -/
def parseDigits (l : List Char) : Nat :=
  l.foldl (fun acc c => acc * 10 + (c.toNat - 48)) 0

/-- Decimal rendering of an `i64` value; mirrors Rust's `i64` `Display`
used by `format!("amount={}", req.amount)`. -/
def intRepr (i : Int) : List Char :=
  if i < 0 then '-' :: natDigits i.natAbs else natDigits i.toNat

/-- `str::trim` from the Rust standard library: strips leading and
trailing whitespace, embedded as a character-list computation. -/
def strTrim (s : String) : String :=
  ⟨((s.data.dropWhile Char.isWhitespace).reverse.dropWhile
      Char.isWhitespace).reverse⟩

/-- `str::to_lowercase` from the Rust standard library, embedded as a
per-character lowercasing (it agrees with Rust on ASCII input such as
currency codes). -/
def strToLower (s : String) : String := ⟨s.data.map Char.toLower⟩

/-- `CreatePaymentIntentRequest` from `payment_intents.rs` (`amount: i64`,
`currency: String`). -/
structure CreatePaymentIntentRequest where
  amount : Int
  currency : String
deriving DecidableEq

/-- `PaymentIntentResponse` from `payment_intents.rs`. -/
structure PaymentIntentResponse where
  id : Nat
  amount : Int
  currency : String
  status : String
deriving DecidableEq

/-- A row of the `payment_intents` table. -/
structure PaymentIntent where
  id : Nat
  amount : Int
  currency : String
  status : String
deriving DecidableEq

/-- A row of the `idempotency_keys` table. -/
structure IdempotencyRecord where
  key : String
  endpoint : String
  request_hash : String
  response_body : Option PaymentIntentResponse
  payment_intent_id : Option Nat
deriving DecidableEq

/-- A row of the `events_outbox` table.  The `payload` jsonb is the
`{"payment_intent": {id, amount, currency, status}}` snapshot both
callers build, modelled by the snapshot struct itself. -/
structure OutboxEvent where
  id : Nat
  event_type : String
  payload : PaymentIntentResponse
deriving DecidableEq

/-- The database state: the three tables plus the fresh-UUID supply. -/
structure Db where
  payment_intents : List PaymentIntent
  idempotency_keys : List IdempotencyRecord
  events_outbox : List OutboxEvent
  nextUuid : Nat
deriving DecidableEq

def emptyDb : Db := ⟨[], [], [], 0⟩

/-- `const IDEMPOTENCY_ENDPOINT` in `payment_intents.rs`. -/
def IDEMPOTENCY_ENDPOINT : String := "POST /v1/payment_intents"

/-- A single-quote character, used by the conflict message `format!`. -/
def squote : String := String.singleton (Char.ofNat 39)

/-- `request_fingerprint` from `payment_intents.rs`:
`format!("amount={}&currency={}", req.amount, req.currency.trim().to_lowercase())`. -/
def request_fingerprint (req : CreatePaymentIntentRequest) : String :=
  "amount=" ++ String.mk (intRepr req.amount) ++ "&currency=" ++
    strToLower (strTrim req.currency)

/-- `validate_create_payment_intent` from `payment_intents.rs`. -/
def validate_create_payment_intent (req : CreatePaymentIntentRequest) :
    Except String Unit :=
  if req.amount ≤ 0 then .error "amount must be > 0"
  else if strTrim req.currency = "" then .error "currency is required"
  else .ok ()

/-- An HTTP header value: an opaque byte string whose `to_str()`
conversion may fail (non-visible-ASCII bytes).  `toStr?` models
`HeaderValue::to_str().ok()`. -/
structure HeaderValue where
  toStr? : Option String

/-- Result of the create handler:
`Result<(StatusCode, Json<PaymentIntentResponse>), (StatusCode, String)>`. -/
inductive CreateResult where
  | ok (code : Nat) (resp : PaymentIntentResponse)
  | err (code : Nat) (msg : String)
deriving DecidableEq

/-- Result of the confirm/get handlers:
`Result<Json<PaymentIntentResponse>, (StatusCode, String)>` (the `Ok`
arm is sent with the implicit 200 status). -/
inductive IntentResult where
  | ok (resp : PaymentIntentResponse)
  | err (code : Nat) (msg : String)
deriving DecidableEq

/-- `SELECT ... FROM idempotency_keys WHERE key = $1 AND endpoint = $2`. -/
def lookupKeyRecord (db : Db) (key : String) : Option IdempotencyRecord :=
  db.idempotency_keys.find? fun r =>
    r.key == key && r.endpoint == IDEMPOTENCY_ENDPOINT

/-- `SELECT ... FROM payment_intents WHERE id = $1`. -/
def lookupIntent (db : Db) (id : Nat) : Option PaymentIntent :=
  db.payment_intents.find? fun pi => pi.id == id

/-- `insert_event` from `events_outbox.rs`: draws a fresh UUID and
appends one row to `events_outbox` on the caller's transaction. -/
def insert_event (db : Db) (event_type : String)
    (payload : PaymentIntentResponse) : Db :=
  { db with
    events_outbox := db.events_outbox ++ [⟨db.nextUuid, event_type, payload⟩],
    nextUuid := db.nextUuid + 1 }

/-- `create_payment_intent` from `payment_intents.rs`.  `headers` is the
`Idempotency-Key` header lookup result (`headers.get("Idempotency-Key")`). -/
def create_payment_intent (db : Db) (headers : Option HeaderValue)
    (req : CreatePaymentIntentRequest) : CreateResult × Db :=
  match validate_create_payment_intent req with
  | .error msg => (.err 400 msg, db)
  | .ok _ =>
    match headers.bind (fun v => v.toStr?) with
    | none =>
      -- no idempotency key: keep current behavior (plain insert, no event)
      let id := db.nextUuid
      let db1 : Db :=
        { db with
          nextUuid := db.nextUuid + 1,
          payment_intents := db.payment_intents ++
            [⟨id, req.amount, req.currency, "requires_confirmation"⟩] }
      (.ok 201 ⟨id, req.amount, req.currency, "requires_confirmation"⟩, db1)
    | some key =>
      let req_hash := request_fingerprint req
      match lookupKeyRecord db key with
      | none =>
        -- reservation won: `INSERT ... ON CONFLICT DO NOTHING RETURNING key`
        -- returned a row; create the intent, finalize the record, append
        -- the outbox event, commit.
        let db1 : Db :=
          { db with
            idempotency_keys := db.idempotency_keys ++
              [⟨key, IDEMPOTENCY_ENDPOINT, req_hash, none, none⟩] }
        let id := db1.nextUuid
        let db2 : Db :=
          { db1 with
            nextUuid := db1.nextUuid + 1,
            payment_intents := db1.payment_intents ++
              [⟨id, req.amount, req.currency, "requires_confirmation"⟩] }
        let response : PaymentIntentResponse :=
          ⟨id, req.amount, req.currency, "requires_confirmation"⟩
        let db3 : Db :=
          { db2 with
            idempotency_keys := db2.idempotency_keys.map fun r =>
              if r.key == key && r.endpoint == IDEMPOTENCY_ENDPOINT then
                { r with response_body := some response,
                         payment_intent_id := some id }
              else r }
        let db4 := insert_event db3 "payment_intent.created" response
        (.ok 201 response, db4)
      | some row =>
        if row.request_hash = req_hash then
          match row.response_body with
          | some resp =>
            -- stored response looks complete: return it verbatim
            (.ok 201 resp, db)
          | none =>
            match row.payment_intent_id with
            | some pi_id =>
              -- crash fallback: reconstruct from payment_intents
              match lookupIntent db pi_id with
              | none => (.err 500 "db error: no rows returned", db)
              | some pi =>
                let response : PaymentIntentResponse :=
                  ⟨pi.id, pi.amount, pi.currency, pi.status⟩
                let db1 : Db :=
                  { db with
                    idempotency_keys := db.idempotency_keys.map fun r =>
                      if r.key == key && r.endpoint == IDEMPOTENCY_ENDPOINT
                      then { r with response_body := some response }
                      else r }
                (.ok 201 response, db1)
            | none =>
              (.err 500
                "idempotency record exists but has no stored response or payment_intent_id",
                db)
        else
          (.err 409 "idempotency key reused with different request", db)

/-- `get_payment_intent` from `payment_intents.rs` (pure read). -/
def get_payment_intent (db : Db) (id : Nat) : IntentResult :=
  match lookupIntent db id with
  | some pi => .ok ⟨pi.id, pi.amount, pi.currency, pi.status⟩
  | none => .err 404 "payment_intent not found"

/-- The 409 message of `confirm_payment_intent`:
`format!("cannot confirm payment_intent in status '{}'", row.status)`. -/
def confirmConflictMsg (st : String) : String :=
  "cannot confirm payment_intent in status " ++ squote ++ st ++ squote

/-- `confirm_payment_intent` from `payment_intents.rs`.  The conditional
`UPDATE ... WHERE id = $1 AND status = 'requires_confirmation'
RETURNING ...` is the guarded map; the returned row (the updated one,
whose status reads `succeeded`) feeds the response and the event payload. -/
def confirm_payment_intent (db : Db) (id : Nat) : IntentResult × Db :=
  match db.payment_intents.find?
      (fun pi => pi.id == id && pi.status == "requires_confirmation") with
  | some pi =>
    let response : PaymentIntentResponse :=
      ⟨pi.id, pi.amount, pi.currency, "succeeded"⟩
    let db1 : Db :=
      { db with
        payment_intents := db.payment_intents.map fun q =>
          if q.id == id && q.status == "requires_confirmation" then
            { q with status := "succeeded" }
          else q }
    let db2 := insert_event db1 "payment_intent.succeeded" response
    (.ok response, db2)
  | none =>
    -- no row updated: diagnose by a follow-up read, then rollback
    match lookupIntent db id with
    | none => (.err 404 "payment_intent not found", db)
    | some row => (.err 409 (confirmConflictMsg row.status), db)

end MiniStripe

namespace MainSrc

open MiniStripe

/-- `create_payment_intent` from `main.rs`: inline validation, plain
insert, no idempotency handling, no outbox event. -/
def create_payment_intent (db : Db) (req : CreatePaymentIntentRequest) :
    CreateResult × Db :=
  if req.amount ≤ 0 then (.err 400 "amount must be > 0", db)
  else if strTrim req.currency = "" then (.err 400 "currency is required", db)
  else
    let id := db.nextUuid
    let db1 : Db :=
      { db with
        nextUuid := db.nextUuid + 1,
        payment_intents := db.payment_intents ++
          [⟨id, req.amount, req.currency, "requires_confirmation"⟩] }
    (.ok 201 ⟨id, req.amount, req.currency, "requires_confirmation"⟩, db1)

/-- `get_payment_intent` from `main.rs` (same query and arms as the
`payment_intents.rs` one). -/
def get_payment_intent (db : Db) (id : Nat) : IntentResult :=
  match lookupIntent db id with
  | some pi => .ok ⟨pi.id, pi.amount, pi.currency, pi.status⟩
  | none => .err 404 "payment_intent not found"

end MainSrc

namespace MiniStripe

/-! ### Decimal-rendering lemmas (for the fingerprint claims) -/

theorem natDigitsF_fuel_irrel :
    ∀ f₁ f₂ n, n < f₁ → n < f₂ → natDigitsF f₁ n = natDigitsF f₂ n := by
  intro f₁
  induction f₁ with
  | zero => intro f₂ n h _; omega
  | succ f ih =>
    intro f₂ n h₁ h₂
    cases f₂ with
    | zero => omega
    | succ g =>
      simp only [natDigitsF]
      by_cases h10 : n < 10
      · simp [h10]
      · simp only [if_neg h10]
        rw [ih g (n / 10) (by omega) (by omega)]

theorem digitChar_toNat {d : Nat} (h : d < 10) : (digitChar d).toNat = 48 + d := by
  interval_cases d <;> decide

theorem parseDigits_natDigitsF :
    ∀ f n, n < f → parseDigits (natDigitsF f n) = n := by
  intro f
  induction f with
  | zero => intro n h; omega
  | succ g ih =>
    intro n h
    simp only [natDigitsF]
    by_cases h10 : n < 10
    · simp only [if_pos h10, parseDigits, List.foldl]
      rw [digitChar_toNat h10]
      omega
    · simp only [if_neg h10, parseDigits, List.foldl_append, List.foldl]
      have hrec := ih (n / 10) (by omega)
      simp only [parseDigits] at hrec
      rw [hrec, digitChar_toNat (show n % 10 < 10 by omega)]
      omega

theorem parseDigits_natDigits (n : Nat) : parseDigits (natDigits n) = n :=
  parseDigits_natDigitsF (n + 1) n (Nat.lt_succ_self n)

theorem natDigits_inj {a b : Nat} (h : natDigits a = natDigits b) : a = b := by
  have ha := parseDigits_natDigits a
  have hb := parseDigits_natDigits b
  rw [h, hb] at ha
  exact ha.symm

theorem natDigitsF_bounds :
    ∀ f n c, c ∈ natDigitsF f n → 48 ≤ c.toNat ∧ c.toNat ≤ 57 := by
  intro f
  induction f with
  | zero => intro n c hc; simp [natDigitsF] at hc
  | succ g ih =>
    intro n c hc
    simp only [natDigitsF] at hc
    by_cases h10 : n < 10
    · rw [if_pos h10] at hc
      simp only [List.mem_singleton] at hc
      subst hc
      rw [digitChar_toNat h10]
      omega
    · rw [if_neg h10] at hc
      rcases List.mem_append.mp hc with h | h
      · exact ih _ _ h
      · simp only [List.mem_singleton] at h
        subst h
        rw [digitChar_toNat (show n % 10 < 10 by omega)]
        omega

theorem natDigits_bounds {n : Nat} {c : Char} (hc : c ∈ natDigits n) :
    48 ≤ c.toNat ∧ c.toNat ≤ 57 :=
  natDigitsF_bounds _ _ _ hc

theorem natDigits_ne_nil (n : Nat) : natDigits n ≠ [] := by
  unfold natDigits
  simp only [natDigitsF]
  by_cases h10 : n < 10 <;> simp [h10]

theorem intRepr_inj {a b : Int} (h : intRepr a = intRepr b) : a = b := by
  unfold intRepr at h
  by_cases ha : a < 0 <;> by_cases hb : b < 0
  · rw [if_pos ha, if_pos hb] at h
    injection h with _ h'
    have := natDigits_inj h'
    omega
  · rw [if_pos ha, if_neg hb] at h
    exfalso
    cases hd : natDigits b.toNat with
    | nil => exact natDigits_ne_nil _ hd
    | cons c cs =>
      rw [hd] at h
      injection h with hc _
      have hmem : c ∈ natDigits b.toNat := by
        rw [hd]; exact List.mem_cons_self _ _
      have hb48 := natDigits_bounds hmem
      rw [← hc] at hb48
      have : ('-').toNat = 45 := by decide
      omega
  · rw [if_neg ha, if_pos hb] at h
    exfalso
    cases hd : natDigits a.toNat with
    | nil => exact natDigits_ne_nil _ hd
    | cons c cs =>
      rw [hd] at h
      injection h with hc _
      have hmem : c ∈ natDigits a.toNat := by
        rw [hd]; exact List.mem_cons_self _ _
      have ha48 := natDigits_bounds hmem
      rw [hc] at ha48
      have : ('-').toNat = 45 := by decide
      omega
  · rw [if_neg ha, if_neg hb] at h
    have := natDigits_inj h
    omega

theorem amp_not_mem_natDigits {n : Nat} : '&' ∉ natDigits n := by
  intro hmem
  have hb := natDigits_bounds hmem
  have : ('&').toNat = 38 := by decide
  omega

theorem amp_not_mem_intRepr (a : Int) : '&' ∉ intRepr a := by
  intro hmem
  unfold intRepr at hmem
  split at hmem
  · rcases List.mem_cons.mp hmem with h | h
    · exact absurd h (by decide)
    · exact amp_not_mem_natDigits h
  · exact amp_not_mem_natDigits hmem

theorem marker_split {m : Char} :
    ∀ (l₁ : List Char) {r₁ l₂ r₂ : List Char},
      l₁ ++ m :: r₁ = l₂ ++ m :: r₂ → m ∉ l₁ → m ∉ l₂ → l₁ = l₂ ∧ r₁ = r₂ := by
  intro l₁
  induction l₁ with
  | nil =>
    intro r₁ l₂ r₂ h h₁ h₂
    cases l₂ with
    | nil =>
      simp only [List.nil_append] at h
      injection h with _ h'
      exact ⟨rfl, h'⟩
    | cons y ys =>
      exfalso
      simp only [List.nil_append, List.cons_append] at h
      injection h with hy _
      exact h₂ (by rw [hy]; exact List.mem_cons_self _ _)
  | cons x xs ih =>
    intro r₁ l₂ r₂ h h₁ h₂
    cases l₂ with
    | nil =>
      exfalso
      simp only [List.cons_append, List.nil_append] at h
      injection h with hx _
      exact h₁ (by rw [← hx]; exact List.mem_cons_self _ _)
    | cons y ys =>
      simp only [List.cons_append] at h
      injection h with hxy h'
      obtain ⟨he, hr⟩ := ih h' (fun hm => h₁ (List.mem_cons_of_mem _ hm))
        (fun hm => h₂ (List.mem_cons_of_mem _ hm))
      exact ⟨by rw [hxy, he], hr⟩

/-- C6: the fingerprint function is deterministic and pure (it is a
function of the request alone), and two requests fingerprint identically
iff their amounts are equal and their currencies are equal after
trimming whitespace and lowercasing. -/
theorem C6_fingerprint_iff (r₁ r₂ : CreatePaymentIntentRequest) :
    request_fingerprint r₁ = request_fingerprint r₂ ↔
      (r₁.amount = r₂.amount ∧
        strToLower (strTrim r₁.currency) = strToLower (strTrim r₂.currency)) := by
  constructor
  · intro h
    unfold request_fingerprint at h
    have hd := congrArg String.data h
    simp only [String.data_append] at hd
    have hB : ("&currency=" : String).data =
        '&' :: ("currency=" : String).data := rfl
    have h' : ("amount=" : String).data ++
        (intRepr r₁.amount ++ ('&' :: (("currency=" : String).data ++
          (strToLower (strTrim r₁.currency)).data))) =
        ("amount=" : String).data ++
        (intRepr r₂.amount ++ ('&' :: (("currency=" : String).data ++
          (strToLower (strTrim r₂.currency)).data))) := by
      simpa [hB, List.append_assoc] using hd
    have h'' := List.append_cancel_left h'
    obtain ⟨hrep, ht⟩ :=
      marker_split _ h'' (amp_not_mem_intRepr _) (amp_not_mem_intRepr _)
    exact ⟨intRepr_inj hrep, String.ext (List.append_cancel_left ht)⟩
  · intro ⟨h₁, h₂⟩
    unfold request_fingerprint
    rw [h₁, h₂]

/-- C7: requests with non-positive amount or whitespace-only currency are
rejected with 400 and a descriptive message before any table is touched
(the returned state is the input state); requests with positive amount
and non-empty trimmed currency pass validation. -/
theorem C7_validation (db : Db) (headers : Option HeaderValue)
    (req : CreatePaymentIntentRequest) :
    (req.amount ≤ 0 →
      create_payment_intent db headers req = (.err 400 "amount must be > 0", db)) ∧
    (0 < req.amount → strTrim req.currency = "" →
      create_payment_intent db headers req =
        (.err 400 "currency is required", db)) ∧
    (0 < req.amount → strTrim req.currency ≠ "" →
      validate_create_payment_intent req = .ok ()) := by
  refine ⟨fun h => ?_, fun h h' => ?_, fun h h' => ?_⟩
  · simp [create_payment_intent, validate_create_payment_intent, h]
  · simp [create_payment_intent, validate_create_payment_intent,
      show ¬(req.amount ≤ 0) by omega, h']
  · simp [validate_create_payment_intent, show ¬(req.amount ≤ 0) by omega, h']

/-- Witness for C7 at concrete inputs. -/
theorem C7_validation_witness :
    create_payment_intent emptyDb none ⟨0, "gbp"⟩ =
        (.err 400 "amount must be > 0", emptyDb) ∧
    create_payment_intent emptyDb none ⟨5, "  "⟩ =
        (.err 400 "currency is required", emptyDb) ∧
    validate_create_payment_intent ⟨5, "gbp"⟩ = .ok () :=
  ⟨(C7_validation emptyDb none ⟨0, "gbp"⟩).1 (by decide),
   (C7_validation emptyDb none ⟨5, "  "⟩).2.1 (by decide) (by decide),
   (C7_validation emptyDb none ⟨5, "gbp"⟩).2.2 (by decide) (by decide)⟩

/-- C10: the create handler of `main.rs` and the key-absent branch of the
`payment_intents.rs` create handler are extensionally equal, and the two
get handlers are extensionally equal. -/
theorem C10_main_refines_api (db : Db) (req : CreatePaymentIntentRequest)
    (id : Nat) :
    MainSrc.create_payment_intent db req = create_payment_intent db none req ∧
    MainSrc.get_payment_intent db id = get_payment_intent db id := by
  constructor
  · by_cases h1 : req.amount ≤ 0
    · simp [MainSrc.create_payment_intent, create_payment_intent,
        validate_create_payment_intent, h1]
    · by_cases h2 : strTrim req.currency = "" <;>
        simp [MainSrc.create_payment_intent, create_payment_intent,
          validate_create_payment_intent, h1, h2]
  · rfl

/-- C9: a present but unconvertible Idempotency-Key header value is
treated exactly as an absent key: the handler computes the same result,
creates a fresh intent unconditionally and writes no idempotency record. -/
theorem C9_header_conversion_failure (db : Db) (v : HeaderValue)
    (req : CreatePaymentIntentRequest) (hv : v.toStr? = none) :
    create_payment_intent db (some v) req = create_payment_intent db none req ∧
    (validate_create_payment_intent req = .ok () →
      (create_payment_intent db (some v) req).1 =
          .ok 201 ⟨db.nextUuid, req.amount, req.currency, "requires_confirmation"⟩ ∧
      (create_payment_intent db (some v) req).2.payment_intents =
          db.payment_intents ++
            [⟨db.nextUuid, req.amount, req.currency, "requires_confirmation"⟩] ∧
      (create_payment_intent db (some v) req).2.idempotency_keys =
          db.idempotency_keys ∧
      (create_payment_intent db (some v) req).2.events_outbox =
          db.events_outbox) := by
  have hbind : (some v).bind (fun v => v.toStr?) = (none : Option String) := by
    simp [hv]
  constructor
  · unfold create_payment_intent
    cases hval : validate_create_payment_intent req <;> simp [hbind]
  · intro hok
    simp [create_payment_intent, hok, hbind]

/-- Witness for C9 at a concrete unconvertible header value. -/
theorem C9_header_conversion_failure_witness :
    create_payment_intent emptyDb (some ⟨none⟩) ⟨1000, "gbp"⟩ =
        create_payment_intent emptyDb none ⟨1000, "gbp"⟩ ∧
    (create_payment_intent emptyDb (some ⟨none⟩) ⟨1000, "gbp"⟩).2.idempotency_keys =
        emptyDb.idempotency_keys :=
  ⟨(C9_header_conversion_failure emptyDb ⟨none⟩ ⟨1000, "gbp"⟩ rfl).1,
   ((C9_header_conversion_failure emptyDb ⟨none⟩ ⟨1000, "gbp"⟩ rfl).2
      rfl).2.2.1⟩

end MiniStripe

namespace MiniStripe

/-! ### `List.find?` helper lemmas -/

theorem find?_map_congr {α : Type} (f : α → α) (p : α → Bool) (l : List α)
    (hp : ∀ a, p (f a) = p a) :
    (l.map f).find? p = (l.find? p).map f := by
  rw [List.find?_map]
  have hpf : p ∘ f = p := funext hp
  rw [hpf]

theorem find?_restrict {α : Type} {p q : α → Bool} {l : List α} {a : α}
    (h : l.find? p = some a) (hqa : q a = true)
    (hqp : ∀ x, q x = true → p x = true) :
    l.find? q = some a := by
  induction l with
  | nil => simp at h
  | cons b bs ih =>
    by_cases hpb : p b = true
    · rw [List.find?_cons_of_pos _ hpb] at h
      injection h with h
      subst h
      exact List.find?_cons_of_pos _ hqa
    · have hqb : ¬ (q b = true) := fun hq => hpb (hqp b hq)
      rw [List.find?_cons_of_neg _ hpb] at h
      rw [List.find?_cons_of_neg _ hqb]
      exact ih h

theorem find?_subset_none {α : Type} {p q : α → Bool} {l : List α}
    (h : l.find? p = none) (hqp : ∀ x, q x = true → p x = true) :
    l.find? q = none := by
  rw [List.find?_eq_none] at h ⊢
  exact fun x hx hq => h x hx (hqp x hq)

/-! ### Validation characterization and normalization lemmas -/

theorem validate_ok_iff (req : CreatePaymentIntentRequest) :
    validate_create_payment_intent req = .ok () ↔
      0 < req.amount ∧ strTrim req.currency ≠ "" := by
  unfold validate_create_payment_intent
  by_cases h1 : req.amount ≤ 0
  · simp only [if_pos h1]
    exact ⟨fun h => Except.noConfusion h, fun ⟨h, _⟩ => by omega⟩
  · by_cases h2 : strTrim req.currency = ""
    · simp only [if_neg h1, if_pos h2]
      exact ⟨fun h => Except.noConfusion h, fun ⟨_, hne⟩ => absurd h2 hne⟩
    · simp only [if_neg h1, if_neg h2]
      exact ⟨fun _ => ⟨by omega, h2⟩, fun _ => trivial⟩

theorem strToLower_eq_empty_iff (s : String) : strToLower s = "" ↔ s = "" := by
  unfold strToLower
  constructor
  · intro h
    have hd : s.data.map Char.toLower = [] := congrArg String.data h
    exact String.ext (List.map_eq_nil_iff.mp hd)
  · intro h
    rw [h]
    rfl

/-! ### C5: key reuse with a different payload -/

/-- C5: a create bearing an already-reserved idempotency key whose stored
fingerprint differs from the request's returns 409 with the fixed
message, and the whole state (intents, records, events) is returned
unchanged. -/
theorem C5_key_reuse_conflict (db : Db) (key : String) (v : HeaderValue)
    (req : CreatePaymentIntentRequest) (row : IdempotencyRecord)
    (hv : v.toStr? = some key)
    (hok : validate_create_payment_intent req = .ok ())
    (hrow : lookupKeyRecord db key = some row)
    (hne : row.request_hash ≠ request_fingerprint req) :
    create_payment_intent db (some v) req =
      (.err 409 "idempotency key reused with different request", db) := by
  have hbind : (some v).bind (fun v => v.toStr?) = some key := by simp [hv]
  simp only [create_payment_intent, hok, hbind, hrow, if_neg hne]

/-- Witness for C5: scenario 4 of the spec (`conflict-key` reserved for
amount 2500, retried with amount 9999). -/
theorem C5_key_reuse_conflict_witness :
    create_payment_intent
        ⟨[], [⟨"conflict-key", IDEMPOTENCY_ENDPOINT,
               "amount=2500&currency=gbp", none, none⟩], [], 0⟩
        (some ⟨some "conflict-key"⟩) ⟨9999, "gbp"⟩ =
      (.err 409 "idempotency key reused with different request",
        ⟨[], [⟨"conflict-key", IDEMPOTENCY_ENDPOINT,
               "amount=2500&currency=gbp", none, none⟩], [], 0⟩) :=
  C5_key_reuse_conflict
    ⟨[], [⟨"conflict-key", IDEMPOTENCY_ENDPOINT,
           "amount=2500&currency=gbp", none, none⟩], [], 0⟩
    "conflict-key" ⟨some "conflict-key"⟩ ⟨9999, "gbp"⟩
    ⟨"conflict-key", IDEMPOTENCY_ENDPOINT,
     "amount=2500&currency=gbp", none, none⟩
    rfl rfl rfl (by decide)

/-! ### C4: crash recovery -/

/-- C4: on a retry whose record matches the fingerprint but whose stored
response body is still the placeholder, the handler reconstructs the
response from the referenced intent (creating nothing and emitting no
event) and backfills the record's `response_body`; if the back-reference
is also missing it returns 500 and changes nothing. -/
theorem C4_crash_recovery (db : Db) (key : String) (v : HeaderValue)
    (req : CreatePaymentIntentRequest) (row : IdempotencyRecord)
    (pi : PaymentIntent)
    (hv : v.toStr? = some key)
    (hok : validate_create_payment_intent req = .ok ())
    (hrow : lookupKeyRecord db key = some row)
    (hhash : row.request_hash = request_fingerprint req)
    (hbody : row.response_body = none) :
    (∀ pid, row.payment_intent_id = some pid → lookupIntent db pid = some pi →
      (create_payment_intent db (some v) req).1 =
          .ok 201 ⟨pi.id, pi.amount, pi.currency, pi.status⟩ ∧
      (create_payment_intent db (some v) req).2.payment_intents =
          db.payment_intents ∧
      (create_payment_intent db (some v) req).2.events_outbox =
          db.events_outbox ∧
      lookupKeyRecord (create_payment_intent db (some v) req).2 key =
          some { row with
                 response_body := some ⟨pi.id, pi.amount, pi.currency, pi.status⟩ }) ∧
    (row.payment_intent_id = none →
      create_payment_intent db (some v) req =
        (.err 500
          "idempotency record exists but has no stored response or payment_intent_id",
          db)) := by
  have hbind : (some v).bind (fun v => v.toStr?) = some key := by simp [hv]
  have hrow' : db.idempotency_keys.find?
      (fun r => r.key == key && r.endpoint == IDEMPOTENCY_ENDPOINT) =
      some row := hrow
  have hguard : (row.key == key && row.endpoint == IDEMPOTENCY_ENDPOINT) = true := by
    have h := List.find?_some hrow'
    exact h
  constructor
  · intro pid hpid hpi
    simp only [create_payment_intent, hok, hbind, hrow, if_pos hhash, hbody,
      hpid, hpi]
    refine ⟨trivial, trivial, trivial, ?_⟩
    simp only [lookupKeyRecord]
    rw [find?_map_congr]
    · rw [hrow']
      simp only [Option.map_some']
      rw [if_pos hguard, hpid]
    · intro r
      split <;> rfl
  · intro hpid
    simp only [create_payment_intent, hok, hbind, hrow, if_pos hhash, hbody,
      hpid]

/-- Witness for C4: one instance exercising the reconstruction path and
one exercising the unrecoverable-record path. -/
theorem C4_crash_recovery_witness :
    (create_payment_intent
        ⟨[⟨7, 1000, "gbp", "requires_confirmation"⟩],
         [⟨"k", IDEMPOTENCY_ENDPOINT, "amount=1000&currency=gbp", none, some 7⟩],
         [], 8⟩
        (some ⟨some "k"⟩) ⟨1000, "gbp"⟩).1 =
      .ok 201 ⟨7, 1000, "gbp", "requires_confirmation"⟩ ∧
    create_payment_intent
        ⟨[], [⟨"k2", IDEMPOTENCY_ENDPOINT, "amount=1000&currency=gbp", none, none⟩],
         [], 0⟩
        (some ⟨some "k2"⟩) ⟨1000, "gbp"⟩ =
      (.err 500
        "idempotency record exists but has no stored response or payment_intent_id",
        ⟨[], [⟨"k2", IDEMPOTENCY_ENDPOINT, "amount=1000&currency=gbp", none, none⟩],
         [], 0⟩) :=
  ⟨((C4_crash_recovery
      ⟨[⟨7, 1000, "gbp", "requires_confirmation"⟩],
       [⟨"k", IDEMPOTENCY_ENDPOINT, "amount=1000&currency=gbp", none, some 7⟩],
       [], 8⟩
      "k" ⟨some "k"⟩ ⟨1000, "gbp"⟩
      ⟨"k", IDEMPOTENCY_ENDPOINT, "amount=1000&currency=gbp", none, some 7⟩
      ⟨7, 1000, "gbp", "requires_confirmation"⟩
      rfl rfl rfl (by decide) rfl).1 7 rfl rfl).1,
   (C4_crash_recovery
      ⟨[], [⟨"k2", IDEMPOTENCY_ENDPOINT, "amount=1000&currency=gbp", none, none⟩],
       [], 0⟩
      "k2" ⟨some "k2"⟩ ⟨1000, "gbp"⟩
      ⟨"k2", IDEMPOTENCY_ENDPOINT, "amount=1000&currency=gbp", none, none⟩
      ⟨0, 0, "", ""⟩
      rfl rfl rfl (by decide) rfl).2 rfl⟩

end MiniStripe

namespace MiniStripe

/-! ### C3: the confirm transition -/

/-- C3: confirming an intent in `requires_confirmation` succeeds, flips
the stored status to `succeeded`, appends exactly one
`payment_intent.succeeded` event in the same step, and returns the
intent payload with status `succeeded`; a second confirm returns 409
naming the current status and leaves the state unchanged; confirming an
unknown id returns 404 with the state unchanged. -/
theorem C3_confirm_transition (db : Db) (id : Nat) (pi : PaymentIntent) :
    (lookupIntent db id = some pi → pi.status = "requires_confirmation" →
      (confirm_payment_intent db id).1 =
          .ok ⟨pi.id, pi.amount, pi.currency, "succeeded"⟩ ∧
      lookupIntent (confirm_payment_intent db id).2 id =
          some { pi with status := "succeeded" } ∧
      (confirm_payment_intent db id).2.events_outbox =
          db.events_outbox ++
            [⟨db.nextUuid, "payment_intent.succeeded",
              ⟨pi.id, pi.amount, pi.currency, "succeeded"⟩⟩] ∧
      confirm_payment_intent (confirm_payment_intent db id).2 id =
          (.err 409 (confirmConflictMsg "succeeded"),
           (confirm_payment_intent db id).2)) ∧
    (lookupIntent db id = none →
      confirm_payment_intent db id = (.err 404 "payment_intent not found", db)) := by
  constructor
  · intro hpi hst
    have hpi' : db.payment_intents.find? (fun x => x.id == id) = some pi := hpi
    have hid : (pi.id == id) = true := by
      have h := List.find?_some hpi'
      exact h
    have hq : (pi.id == id && pi.status == "requires_confirmation") = true := by
      simp [hid, hst]
    have hfound : db.payment_intents.find?
        (fun x => x.id == id && x.status == "requires_confirmation") =
        some pi :=
      find?_restrict hpi' hq (fun x hx => (Bool.and_eq_true_iff.mp hx).1)
    have hidmap : ∀ q : PaymentIntent,
        ((if q.id == id && q.status == "requires_confirmation" then
            { q with status := "succeeded" } else q).id == id) =
          (q.id == id) := by
      intro q; split <;> rfl
    have hlook2 : lookupIntent (confirm_payment_intent db id).2 id =
        some { pi with status := "succeeded" } := by
      simp only [confirm_payment_intent, hfound, insert_event, lookupIntent]
      rw [find?_map_congr _ _ _ hidmap, hpi']
      simp only [Option.map_some']
      rw [if_pos hq]
    refine ⟨?_, hlook2, ?_, ?_⟩
    · simp only [confirm_payment_intent, hfound]
    · simp only [confirm_payment_intent, hfound, insert_event]
    · have hnone2 : (confirm_payment_intent db id).2.payment_intents.find?
          (fun x => x.id == id && x.status == "requires_confirmation") =
          none := by
        simp only [confirm_payment_intent, hfound, insert_event]
        rw [List.find?_eq_none]
        intro x hx
        obtain ⟨a, _, rfl⟩ := List.mem_map.mp hx
        by_cases hga : (a.id == id && a.status == "requires_confirmation") = true
        · rw [if_pos hga]
          simp
        · rw [if_neg hga]
          exact fun hc => hga hc
      generalize hg : (confirm_payment_intent db id).2 = db2 at hnone2 hlook2 ⊢
      simp only [confirm_payment_intent, hnone2, hlook2]
  · intro hnone
    have hnone' : db.payment_intents.find? (fun x => x.id == id) = none := hnone
    have hqnone : db.payment_intents.find?
        (fun x => x.id == id && x.status == "requires_confirmation") = none :=
      find?_subset_none hnone' (fun x hx => (Bool.and_eq_true_iff.mp hx).1)
    simp only [confirm_payment_intent, hqnone, lookupIntent, hnone']

/-- Witness for C3: scenario 5/6 of the spec at a one-intent state and
the empty state. -/
theorem C3_confirm_transition_witness :
    (confirm_payment_intent
        ⟨[⟨5, 1000, "gbp", "requires_confirmation"⟩], [], [], 6⟩ 5).1 =
      .ok ⟨5, 1000, "gbp", "succeeded"⟩ ∧
    confirm_payment_intent
        (confirm_payment_intent
          ⟨[⟨5, 1000, "gbp", "requires_confirmation"⟩], [], [], 6⟩ 5).2 5 =
      (.err 409 (confirmConflictMsg "succeeded"),
       (confirm_payment_intent
          ⟨[⟨5, 1000, "gbp", "requires_confirmation"⟩], [], [], 6⟩ 5).2) ∧
    confirm_payment_intent emptyDb 5 =
      (.err 404 "payment_intent not found", emptyDb) :=
  ⟨((C3_confirm_transition
      ⟨[⟨5, 1000, "gbp", "requires_confirmation"⟩], [], [], 6⟩ 5
      ⟨5, 1000, "gbp", "requires_confirmation"⟩).1 rfl rfl).1,
   ((C3_confirm_transition
      ⟨[⟨5, 1000, "gbp", "requires_confirmation"⟩], [], [], 6⟩ 5
      ⟨5, 1000, "gbp", "requires_confirmation"⟩).1 rfl rfl).2.2.2,
   (C3_confirm_transition emptyDb 5 ⟨0, 0, "", ""⟩).2 rfl⟩

end MiniStripe

namespace MiniStripe

/-! ### C2: idempotent creates -/

/-- First keyed create with a fresh key: reserves the key, inserts one
intent, appends one `payment_intent.created` event, finalizes the record
(all in one committed step) and returns 201. -/
theorem create_keyed_fresh (db : Db) (key : String) (v : HeaderValue)
    (req : CreatePaymentIntentRequest)
    (hv : v.toStr? = some key)
    (hok : validate_create_payment_intent req = .ok ())
    (hfresh : lookupKeyRecord db key = none) :
    (create_payment_intent db (some v) req).1 =
        .ok 201 ⟨db.nextUuid, req.amount, req.currency, "requires_confirmation"⟩ ∧
    (create_payment_intent db (some v) req).2.payment_intents =
        db.payment_intents ++
          [⟨db.nextUuid, req.amount, req.currency, "requires_confirmation"⟩] ∧
    (create_payment_intent db (some v) req).2.events_outbox =
        db.events_outbox ++
          [⟨db.nextUuid + 1, "payment_intent.created",
            ⟨db.nextUuid, req.amount, req.currency, "requires_confirmation"⟩⟩] ∧
    (create_payment_intent db (some v) req).2.nextUuid = db.nextUuid + 2 ∧
    lookupKeyRecord (create_payment_intent db (some v) req).2 key =
        some ⟨key, IDEMPOTENCY_ENDPOINT, request_fingerprint req,
          some ⟨db.nextUuid, req.amount, req.currency, "requires_confirmation"⟩,
          some db.nextUuid⟩ := by
  have hbind : (some v).bind (fun v => v.toStr?) = some key := by simp [hv]
  have hfresh' : db.idempotency_keys.find?
      (fun r => r.key == key && r.endpoint == IDEMPOTENCY_ENDPOINT) =
      none := hfresh
  simp only [create_payment_intent, hok, hbind, hfresh, insert_event]
  refine ⟨trivial, trivial, trivial, trivial, ?_⟩
  simp only [lookupKeyRecord]
  rw [find?_map_congr]
  · rw [List.find?_append, hfresh', Option.none_or]
    simp
  · intro r
    split <;> rfl

/-- Retried keyed create against a finalized matching record: returns the
stored response verbatim with 201 and leaves the state unchanged. -/
theorem create_keyed_replay (db : Db) (key : String) (v : HeaderValue)
    (req : CreatePaymentIntentRequest) (row : IdempotencyRecord)
    (resp : PaymentIntentResponse)
    (hv : v.toStr? = some key)
    (hok : validate_create_payment_intent req = .ok ())
    (hrow : lookupKeyRecord db key = some row)
    (hhash : row.request_hash = request_fingerprint req)
    (hbody : row.response_body = some resp) :
    create_payment_intent db (some v) req = (.ok 201 resp, db) := by
  have hbind : (some v).bind (fun v => v.toStr?) = some key := by simp [hv]
  simp only [create_payment_intent, hok, hbind, hrow, if_pos hhash, hbody]

/-- C2: for creates sharing one idempotency key and an identical payload
(equal amount, trimmed-case-insensitively equal currency), the first
call returns 201 creating exactly one intent row and one
`payment_intent.created` event, and every further call returns the same
201 response with the same intent identifier and leaves the state
unchanged — so any number of retries keeps exactly one row and one
event. -/
theorem C2_idempotent_retries (db : Db) (key : String)
    (req req' : CreatePaymentIntentRequest)
    (hok : validate_create_payment_intent req = .ok ())
    (hfresh : lookupKeyRecord db key = none)
    (hamt : req'.amount = req.amount)
    (hcur : strToLower (strTrim req'.currency) = strToLower (strTrim req.currency)) :
    (create_payment_intent db (some ⟨some key⟩) req).1 =
        .ok 201 ⟨db.nextUuid, req.amount, req.currency, "requires_confirmation"⟩ ∧
    (create_payment_intent db (some ⟨some key⟩) req).2.payment_intents =
        db.payment_intents ++
          [⟨db.nextUuid, req.amount, req.currency, "requires_confirmation"⟩] ∧
    (create_payment_intent db (some ⟨some key⟩) req).2.events_outbox =
        db.events_outbox ++
          [⟨db.nextUuid + 1, "payment_intent.created",
            ⟨db.nextUuid, req.amount, req.currency, "requires_confirmation"⟩⟩] ∧
    create_payment_intent (create_payment_intent db (some ⟨some key⟩) req).2
        (some ⟨some key⟩) req' =
      (.ok 201 ⟨db.nextUuid, req.amount, req.currency, "requires_confirmation"⟩,
       (create_payment_intent db (some ⟨some key⟩) req).2) := by
  have hok01 := (validate_ok_iff req).mp hok
  have hok' : validate_create_payment_intent req' = .ok () := by
    rw [validate_ok_iff]
    refine ⟨by omega, fun hempty => ?_⟩
    rw [hempty] at hcur
    have : strTrim req.currency = "" :=
      (strToLower_eq_empty_iff _).mp
        (by rw [← hcur]; exact (strToLower_eq_empty_iff _).mpr rfl)
    exact hok01.2 this
  have hfp : request_fingerprint req' = request_fingerprint req := by
    unfold request_fingerprint
    rw [hamt, hcur]
  obtain ⟨h1, h2, h3, _, h5⟩ :=
    create_keyed_fresh db key ⟨some key⟩ req rfl hok hfresh
  refine ⟨h1, h2, h3, ?_⟩
  have := create_keyed_replay (create_payment_intent db (some ⟨some key⟩) req).2
    key ⟨some key⟩ req'
    ⟨key, IDEMPOTENCY_ENDPOINT, request_fingerprint req,
      some ⟨db.nextUuid, req.amount, req.currency, "requires_confirmation"⟩,
      some db.nextUuid⟩
    ⟨db.nextUuid, req.amount, req.currency, "requires_confirmation"⟩
    rfl hok' h5 (by simpa using hfp.symm) rfl
  exact this

/-- Witness for C2: scenario 3 of the spec, key `abc123`, payload
`{amount: 2500, currency: "gbp"}`, retried once. -/
theorem C2_idempotent_retries_witness :
    (create_payment_intent emptyDb (some ⟨some "abc123"⟩) ⟨2500, "gbp"⟩).1 =
        .ok 201 ⟨0, 2500, "gbp", "requires_confirmation"⟩ ∧
    create_payment_intent
        (create_payment_intent emptyDb (some ⟨some "abc123"⟩) ⟨2500, "gbp"⟩).2
        (some ⟨some "abc123"⟩) ⟨2500, "gbp"⟩ =
      (.ok 201 ⟨0, 2500, "gbp", "requires_confirmation"⟩,
       (create_payment_intent emptyDb (some ⟨some "abc123"⟩) ⟨2500, "gbp"⟩).2) :=
  ⟨(C2_idempotent_retries emptyDb "abc123" ⟨2500, "gbp"⟩ ⟨2500, "gbp"⟩
      rfl rfl rfl rfl).1,
   (C2_idempotent_retries emptyDb "abc123" ⟨2500, "gbp"⟩ ⟨2500, "gbp"⟩
      rfl rfl rfl rfl).2.2.2⟩

end MiniStripe

namespace MiniStripe

/-! ### Operational step relation and reachability (for C1 and C8) -/

/-- One committed request against the database: either create handler or
the confirm handler (get is read-only). -/
inductive Step : Db → Db → Prop where
  | create {db : Db} (headers : Option HeaderValue)
      (req : CreatePaymentIntentRequest) :
      Step db (create_payment_intent db headers req).2
  | confirm {db : Db} (id : Nat) : Step db (confirm_payment_intent db id).2
  | createMain {db : Db} (req : CreatePaymentIntentRequest) :
      Step db (MainSrc.create_payment_intent db req).2

/-- Database states reachable from the empty (freshly migrated) state. -/
inductive Reachable : Db → Prop where
  | init : Reachable emptyDb
  | step {db db' : Db} : Reachable db → Step db db' → Reachable db'

/-- Every intent row carries one of the two legal statuses. -/
def StatusesValid (db : Db) : Prop :=
  ∀ pi ∈ db.payment_intents,
    pi.status = "requires_confirmation" ∨ pi.status = "succeeded"

/-- Every committed `payment_intent.created` event has a matching
PaymentIntent row. -/
def CreatedEventsBacked (db : Db) : Prop :=
  ∀ e ∈ db.events_outbox, e.event_type = "payment_intent.created" →
    ∃ pi ∈ db.payment_intents, pi.id = e.payload.id

/-- Shape analysis of the create handler's committed state: either it
wrote nothing to `payment_intents`/`events_outbox`, or it appended one
`requires_confirmation` row, with either no event (keyless path) or the
single `payment_intent.created` event of that row (keyed path). -/
theorem create_state_shape (db : Db) (headers : Option HeaderValue)
    (req : CreatePaymentIntentRequest) :
    ((create_payment_intent db headers req).2.payment_intents =
        db.payment_intents ∧
     (create_payment_intent db headers req).2.events_outbox =
        db.events_outbox) ∨
    (∃ id, (create_payment_intent db headers req).2.payment_intents =
        db.payment_intents ++
          [⟨id, req.amount, req.currency, "requires_confirmation"⟩] ∧
      ((create_payment_intent db headers req).2.events_outbox =
          db.events_outbox ∨
       (create_payment_intent db headers req).2.events_outbox =
          db.events_outbox ++
            [⟨id + 1, "payment_intent.created",
              ⟨id, req.amount, req.currency, "requires_confirmation"⟩⟩])) := by
  unfold create_payment_intent
  dsimp only
  repeat' split
  all_goals
    first
      | exact Or.inl ⟨rfl, rfl⟩
      | exact Or.inr ⟨db.nextUuid, rfl, Or.inl rfl⟩
      | exact Or.inr ⟨db.nextUuid, rfl, Or.inr rfl⟩

/-- Shape analysis of the confirm handler's committed state. -/
theorem confirm_state_shape (db : Db) (id : Nat) :
    (confirm_payment_intent db id).2 = db ∨
    (∃ pi, db.payment_intents.find?
        (fun x => x.id == id && x.status == "requires_confirmation") =
        some pi ∧
      (confirm_payment_intent db id).2.payment_intents =
        db.payment_intents.map (fun q =>
          if q.id == id && q.status == "requires_confirmation" then
            { q with status := "succeeded" } else q) ∧
      (confirm_payment_intent db id).2.events_outbox =
        db.events_outbox ++
          [⟨db.nextUuid, "payment_intent.succeeded",
            ⟨pi.id, pi.amount, pi.currency, "succeeded"⟩⟩]) := by
  unfold confirm_payment_intent
  split
  · next pi hpi => exact Or.inr ⟨pi, hpi, rfl, rfl⟩
  · split
    · exact Or.inl rfl
    · exact Or.inl rfl

/-- Shape analysis of the `main.rs` create handler: never writes an
event, and either writes nothing or appends one fresh row. -/
theorem createMain_state_shape (db : Db) (req : CreatePaymentIntentRequest) :
    (MainSrc.create_payment_intent db req).2.events_outbox =
        db.events_outbox ∧
    ((MainSrc.create_payment_intent db req).2.payment_intents =
        db.payment_intents ∨
     (MainSrc.create_payment_intent db req).2.payment_intents =
        db.payment_intents ++
          [⟨db.nextUuid, req.amount, req.currency, "requires_confirmation"⟩]) := by
  unfold MainSrc.create_payment_intent
  split
  · exact ⟨rfl, Or.inl rfl⟩
  · split
    · exact ⟨rfl, Or.inl rfl⟩
    · exact ⟨rfl, Or.inr rfl⟩

theorem statusesValid_step {db db' : Db} (h : StatusesValid db)
    (hs : Step db db') : StatusesValid db' := by
  cases hs with
  | create headers req =>
    rcases create_state_shape db headers req with ⟨hp, _⟩ | ⟨id, hp, _⟩
    · intro pi hpi
      rw [hp] at hpi
      exact h pi hpi
    · intro pi hpi
      rw [hp] at hpi
      rcases List.mem_append.mp hpi with hm | hm
      · exact h pi hm
      · simp only [List.mem_singleton] at hm
        subst hm
        exact Or.inl rfl
  | confirm id =>
    rcases confirm_state_shape db id with heq | ⟨pi0, _, hp, _⟩
    · rw [heq]
      exact h
    · intro pi hpi
      rw [hp] at hpi
      obtain ⟨a, ha, rfl⟩ := List.mem_map.mp hpi
      by_cases hg : (a.id == id && a.status == "requires_confirmation") = true
      · rw [if_pos hg]
        exact Or.inr rfl
      · rw [if_neg hg]
        exact h a ha
  | createMain req =>
    obtain ⟨_, hp | hp⟩ := createMain_state_shape db req
    · intro pi hpi
      rw [hp] at hpi
      exact h pi hpi
    · intro pi hpi
      rw [hp] at hpi
      rcases List.mem_append.mp hpi with hm | hm
      · exact h pi hm
      · simp only [List.mem_singleton] at hm
        subst hm
        exact Or.inl rfl

theorem createdBacked_step {db db' : Db} (h : CreatedEventsBacked db)
    (hs : Step db db') : CreatedEventsBacked db' := by
  cases hs with
  | create headers req =>
    rcases create_state_shape db headers req with ⟨hp, he⟩ | ⟨id, hp, he | he⟩
    · intro e hmem ht
      rw [he] at hmem
      rw [hp]
      exact h e hmem ht
    · intro e hmem ht
      rw [he] at hmem
      rw [hp]
      obtain ⟨pi, hpi, hid⟩ := h e hmem ht
      exact ⟨pi, List.mem_append_left _ hpi, hid⟩
    · intro e hmem ht
      rw [he] at hmem
      rw [hp]
      rcases List.mem_append.mp hmem with hm | hm
      · obtain ⟨pi, hpi, hid⟩ := h e hm ht
        exact ⟨pi, List.mem_append_left _ hpi, hid⟩
      · simp only [List.mem_singleton] at hm
        subst hm
        exact ⟨⟨id, req.amount, req.currency, "requires_confirmation"⟩,
          List.mem_append_right _ (List.mem_singleton.mpr rfl), rfl⟩
  | confirm id =>
    rcases confirm_state_shape db id with heq | ⟨pi0, _, hp, he⟩
    · rw [heq]
      exact h
    · intro e hmem ht
      rw [he] at hmem
      rw [hp]
      rcases List.mem_append.mp hmem with hm | hm
      · obtain ⟨pi, hpi, hid⟩ := h e hm ht
        refine ⟨if pi.id == id && pi.status == "requires_confirmation" then
            { pi with status := "succeeded" } else pi,
          List.mem_map_of_mem _ hpi, ?_⟩
        split <;> exact hid
      · simp only [List.mem_singleton] at hm
        subst hm
        simp at ht
  | createMain req =>
    obtain ⟨he, hp | hp⟩ := createMain_state_shape db req
    · intro e hmem ht
      rw [he] at hmem
      rw [hp]
      exact h e hmem ht
    · intro e hmem ht
      rw [he] at hmem
      rw [hp]
      obtain ⟨pi, hpi, hid⟩ := h e hmem ht
      exact ⟨pi, List.mem_append_left _ hpi, hid⟩

theorem reachable_invariants {db : Db} (h : Reachable db) :
    StatusesValid db ∧ CreatedEventsBacked db := by
  induction h with
  | init =>
    exact ⟨fun pi hpi => absurd hpi (List.not_mem_nil pi),
      fun e he _ => absurd he (List.not_mem_nil e)⟩
  | step _ hs ih =>
    exact ⟨statusesValid_step ih.1 hs, createdBacked_step ih.2 hs⟩

end MiniStripe

namespace MiniStripe

/-! ### Status-transition analysis (C8) -/

/-- The status of the row the handlers would read for `id`
(`SELECT status FROM payment_intents WHERE id = $1`). -/
def IntentStatus (db : Db) (id : Nat) : Option String :=
  (lookupIntent db id).map (fun pi => pi.status)

/-- Rows that appear during a step appear with status
`requires_confirmation`. -/
def NewRowsRequireConfirmation (db db' : Db) : Prop :=
  ∀ id st, IntentStatus db id = none → IntentStatus db' id = some st →
    st = "requires_confirmation"

/-- A step changes a stored status only along
`requires_confirmation → succeeded`. -/
def LegalTransitions (db db' : Db) : Prop :=
  ∀ id st st', IntentStatus db id = some st → IntentStatus db' id = some st' →
    st' = st ∨ (st = "requires_confirmation" ∧ st' = "succeeded")

theorem intentStatus_some {db : Db} {id : Nat} {st : String}
    (h : IntentStatus db id = some st) :
    ∃ pi, db.payment_intents.find? (fun x => x.id == id) = some pi ∧
      pi.status = st := by
  unfold IntentStatus lookupIntent at h
  exact Option.map_eq_some'.mp h

theorem intentStatus_none {db : Db} {id : Nat}
    (h : IntentStatus db id = none) :
    db.payment_intents.find? (fun x => x.id == id) = none := by
  unfold IntentStatus lookupIntent at h
  cases hf : db.payment_intents.find? (fun x => x.id == id) with
  | none => rfl
  | some pi => rw [hf] at h; simp at h

theorem step_transitions {db db' : Db} (hs : Step db db') :
    NewRowsRequireConfirmation db db' ∧ LegalTransitions db db' := by
  have append_case : ∀ (x : PaymentIntent),
      x.status = "requires_confirmation" →
      db'.payment_intents = db.payment_intents ++ [x] →
      NewRowsRequireConfirmation db db' ∧ LegalTransitions db db' := by
    intro x hx hp
    constructor
    · intro id st hnone hsome
      obtain ⟨pi, hpi, hpist⟩ := intentStatus_some hsome
      rw [hp, List.find?_append, intentStatus_none hnone, Option.none_or] at hpi
      cases hxid : (x.id == id) with
      | true =>
        simp only [List.find?_cons, hxid] at hpi
        injection hpi with hpi
        subst hpi
        rw [← hpist]
        exact hx
      | false =>
        simp [List.find?_cons, hxid] at hpi
    · intro id st st' hsome hsome'
      obtain ⟨pi, hpi, hpist⟩ := intentStatus_some hsome
      obtain ⟨pi', hpi', hpist'⟩ := intentStatus_some hsome'
      rw [hp, List.find?_append, hpi] at hpi'
      injection hpi' with hpi'
      subst hpi'
      exact Or.inl (by rw [← hpist, ← hpist'])
  have same_case : db'.payment_intents = db.payment_intents →
      NewRowsRequireConfirmation db db' ∧ LegalTransitions db db' := by
    intro hp
    constructor
    · intro id st hnone hsome
      obtain ⟨pi, hpi, _⟩ := intentStatus_some hsome
      rw [hp, intentStatus_none hnone] at hpi
      cases hpi
    · intro id st st' hsome hsome'
      obtain ⟨pi, hpi, hpist⟩ := intentStatus_some hsome
      obtain ⟨pi', hpi', hpist'⟩ := intentStatus_some hsome'
      rw [hp, hpi] at hpi'
      injection hpi' with hpi'
      subst hpi'
      exact Or.inl (by rw [← hpist, ← hpist'])
  cases hs with
  | create headers req =>
    rcases create_state_shape db headers req with ⟨hp, _⟩ | ⟨idn, hp, _⟩
    · exact same_case hp
    · exact append_case _ rfl hp
  | createMain req =>
    obtain ⟨_, hp | hp⟩ := createMain_state_shape db req
    · exact same_case hp
    · exact append_case _ rfl hp
  | confirm idc =>
    rcases confirm_state_shape db idc with heq | ⟨pi0, _, hp, _⟩
    · exact same_case (by rw [heq])
    · have hmap : ∀ q : PaymentIntent,
          ((if q.id == idc && q.status == "requires_confirmation" then
              { q with status := "succeeded" } else q).id == ·) =
            (q.id == ·) := by
        intro q
        funext i
        split <;> rfl
      constructor
      · intro id st hnone hsome
        obtain ⟨pi, hpi, _⟩ := intentStatus_some hsome
        rw [hp] at hpi
        rw [find?_map_congr _ _ _ (fun q => congrFun (hmap q) id),
          intentStatus_none hnone] at hpi
        cases hpi
      · intro id st st' hsome hsome'
        obtain ⟨pi, hpi, hpist⟩ := intentStatus_some hsome
        obtain ⟨pi', hpi', hpist'⟩ := intentStatus_some hsome'
        rw [hp, find?_map_congr _ _ _ (fun q => congrFun (hmap q) id),
          hpi] at hpi'
        simp only [Option.map_some'] at hpi'
        injection hpi' with hpi'
        by_cases hg : (pi.id == idc && pi.status == "requires_confirmation") = true
        · rw [if_pos hg] at hpi'
          right
          constructor
          · rw [← hpist]
            exact eq_of_beq (Bool.and_eq_true_iff.mp hg).2
          · rw [← hpist', ← hpi']
        · rw [if_neg hg] at hpi'
          subst hpi'
          exact Or.inl (by rw [← hpist, ← hpist'])

/-- C8: in every reachable state each stored status is one of the two
enum values; every step introduces new rows only with status
`requires_confirmation`; and a step changes an existing status only
along `requires_confirmation → succeeded` — in particular a `succeeded`
status is never changed. -/
theorem C8_status_machine (db db' : Db) (hr : Reachable db)
    (hs : Step db db') :
    StatusesValid db ∧ NewRowsRequireConfirmation db db' ∧
      LegalTransitions db db' :=
  ⟨(reachable_invariants hr).1, (step_transitions hs).1,
    (step_transitions hs).2⟩

/-- Witness for C8: the empty state and the keyless-create step out of it. -/
theorem C8_status_machine_witness :
    StatusesValid emptyDb ∧
    NewRowsRequireConfirmation emptyDb
      (create_payment_intent emptyDb none ⟨1000, "gbp"⟩).2 ∧
    LegalTransitions emptyDb
      (create_payment_intent emptyDb none ⟨1000, "gbp"⟩).2 :=
  C8_status_machine emptyDb (create_payment_intent emptyDb none ⟨1000, "gbp"⟩).2
    Reachable.init (Step.create none ⟨1000, "gbp"⟩)

/-! ### C1: transactional outbox -/

/-- C1 as stated is false on the code: a create without an
Idempotency-Key commits a new PaymentIntent row (201) while writing no
`payment_intent.created` outbox event at all. -/
theorem C1_counterexample :
    (create_payment_intent emptyDb none ⟨1000, "gbp"⟩).1 =
        .ok 201 ⟨0, 1000, "gbp", "requires_confirmation"⟩ ∧
    (create_payment_intent emptyDb none ⟨1000, "gbp"⟩).2.payment_intents =
        [⟨0, 1000, "gbp", "requires_confirmation"⟩] ∧
    (create_payment_intent emptyDb none ⟨1000, "gbp"⟩).2.events_outbox = [] := by
  decide

/-- C1 (amended): a keyed create writes the `payment_intent.created`
event in the same committed step as the intent insert; a keyless create
commits the row with no event; and conversely no
`payment_intent.created` event is ever committed without its
corresponding PaymentIntent row. -/
theorem C1_amended_outbox_atomicity (db dbR : Db) (key : String)
    (req : CreatePaymentIntentRequest)
    (hok : validate_create_payment_intent req = .ok ())
    (hfresh : lookupKeyRecord db key = none)
    (hr : Reachable dbR) :
    ((create_payment_intent db (some ⟨some key⟩) req).2.payment_intents =
        db.payment_intents ++
          [⟨db.nextUuid, req.amount, req.currency, "requires_confirmation"⟩] ∧
     (create_payment_intent db (some ⟨some key⟩) req).2.events_outbox =
        db.events_outbox ++
          [⟨db.nextUuid + 1, "payment_intent.created",
            ⟨db.nextUuid, req.amount, req.currency, "requires_confirmation"⟩⟩]) ∧
    ((create_payment_intent db none req).2.payment_intents =
        db.payment_intents ++
          [⟨db.nextUuid, req.amount, req.currency, "requires_confirmation"⟩] ∧
     (create_payment_intent db none req).2.events_outbox =
        db.events_outbox) ∧
    CreatedEventsBacked dbR := by
  obtain ⟨_, h2, h3, _, _⟩ :=
    create_keyed_fresh db key ⟨some key⟩ req rfl hok hfresh
  refine ⟨⟨h2, h3⟩, ⟨?_, ?_⟩, (reachable_invariants hr).2⟩
  · simp [create_payment_intent, hok]
  · simp [create_payment_intent, hok]

/-- Witness for C1 (amended) at the empty state. -/
theorem C1_amended_outbox_atomicity_witness :
    (create_payment_intent emptyDb (some ⟨some "k"⟩) ⟨1000, "gbp"⟩).2.events_outbox =
        emptyDb.events_outbox ++
          [⟨1, "payment_intent.created", ⟨0, 1000, "gbp", "requires_confirmation"⟩⟩] ∧
    (create_payment_intent emptyDb none ⟨1000, "gbp"⟩).2.events_outbox =
        emptyDb.events_outbox ∧
    CreatedEventsBacked emptyDb :=
  ⟨(C1_amended_outbox_atomicity emptyDb emptyDb "k" ⟨1000, "gbp"⟩
      rfl rfl Reachable.init).1.2,
   (C1_amended_outbox_atomicity emptyDb emptyDb "k" ⟨1000, "gbp"⟩
      rfl rfl Reachable.init).2.1.2,
   (C1_amended_outbox_atomicity emptyDb emptyDb "k" ⟨1000, "gbp"⟩
      rfl rfl Reachable.init).2.2⟩

end MiniStripe
